import Mathlib

/-!
Verification of the CCL tournament discovery/archival/extraction pipeline
(Next.js API routes `run-ccl-search`, `upload-ccl-pdf`, `extract-ccl-info`,
`get-ccl-status` over a Firestore-backed record store).

The JavaScript handlers are shallowly embedded as pure Lean functions:
the Firestore collection is a `List TournamentRecord`, the external
collaborators (search provider, page fetches, blob storage, language model,
JSON parser) are explicit environments of functions, and each handler
returns its HTTP response together with the new store content and a log of
the outward effects it performed (page/binary fetches, blob uploads, model
calls).
-/

/-- Substring test on character lists: does `hay` start with `needle`?
Models the initial-segment part of JavaScript `String.prototype.includes`. -/
def listStartsWith : List Char → List Char → Bool
  | _, [] => true
  | [], _ :: _ => false
  | c :: cs, n :: ns => c == n && listStartsWith cs ns

/-- Contiguous-substring containment on character lists; `containsSeq hay needle`
is true iff `needle` occurs contiguously inside `hay` (JS `hay.includes(needle)`). -/
def containsSeq (hay needle : List Char) : Bool :=
  listStartsWith hay needle ||
    match hay with
    | [] => false
    | _ :: rest => containsSeq rest needle

/-- JavaScript `hay.includes(needle)` on strings. -/
def strContains (hay needle : String) : Bool :=
  containsSeq hay.data needle.data

/-- JavaScript `s.toLowerCase()` (ASCII case folding, applied per character).
Implemented on the character list so that it evaluates inside the kernel. -/
def strLower (s : String) : String :=
  ⟨s.data.map Char.toLower⟩

/-- Case-insensitive substring containment (both sides lower-cased).
Used only to state spec-level properties about the citation filter. -/
def containsCI (hay needle : String) : Bool :=
  strContains (strLower hay) (strLower needle)

/-- A JSON value, the payload type produced by `JSON.parse` on the
language-model response and stored in `tournamentInfo`. -/
inductive Json where
  | null : Json
  | bool : Bool → Json
  | num : Int → Json
  | str : String → Json
  | arr : List Json → Json
  | obj : List (String × Json) → Json

/-- A persisted document of the `ccl-tournament-info` Firestore collection,
as written by the `run-ccl-search` handler and mutated by `upload-ccl-pdf`
(adds `pdfStorageUrl`) and `extract-ccl-info` (adds `tournamentInfo`). -/
structure TournamentRecord where
  season : String
  year : String
  source : String
  pdf : String
  pdfStorageUrl : String
  instructions : String
  registration : String
  fairPlay : String
  platform : String
  tournamentInfo : Option Json

/-- The Firestore query `where("season", "==", season), where("year", "==", year)`
used identically by all handlers. -/
def keyMatch (season year : String) (r : TournamentRecord) : Bool :=
  r.season == season && r.year == year

/-- One anchor tag of a scraped page, as the `(href, visible text)` pair the
cheerio loop reads; `href = ""` models an anchor with no href attribute
(skipped by `if (!href) return`). -/
structure Anchor where
  href : String
  text : String

/-- The per-page classification buckets built by the `$('a').each` loop of
`run-ccl-search` (fields named as in the source object literal). -/
structure ScrapeResult where
  url : String
  pdf : List String
  instructions : List String
  registration : List String
  fairPlay : List String
  platform : List String

def emptyScrapeResult (url : String) : ScrapeResult :=
  { url := url, pdf := [], instructions := [], registration := [],
    fairPlay := [], platform := [] }

/-- Source: `const addLink = (arr, link) => { if (!arr.includes(link)) arr.push(link); }` -/
def addLink (arr : List String) (link : String) : List String :=
  if arr.contains link then arr else arr ++ [link]

/-- Site-chrome exclusion applied before any bucket test:
`lowerHref.includes('chess.com/register') || lowerHref.includes('chess.com/login')`. -/
def excludedHref (lowerHref : String) : Bool :=
  strContains lowerHref "chess.com/register" || strContains lowerHref "chess.com/login"

/-- document bucket condition (source line: `text.includes('pdf') || ...`). -/
def pdfCond (lowerHref text : String) : Bool :=
  strContains text "pdf" || strContains lowerHref ".pdf" ||
    strContains lowerHref "drive.google.com" ||
    (strContains lowerHref "docs.google.com" && !(strContains lowerHref "/forms/"))

/-- instructions bucket condition. -/
def instructionsCond (_lowerHref text : String) : Bool :=
  strContains text "instruction"

/-- registration bucket condition. -/
def registrationCond (lowerHref text : String) : Bool :=
  strContains text "registration" || strContains text "register" ||
    strContains text "sign up" || strContains lowerHref "forms.gle" ||
    strContains lowerHref "docs.google.com/forms"

/-- fairPlay bucket condition. -/
def fairPlayCond (lowerHref text : String) : Bool :=
  strContains lowerHref "fairplay-agreement" ||
    (strContains text "fair play" && !(strContains lowerHref "user-agreement") &&
      !(strContains lowerHref "/cheating") && !(strContains lowerHref "legal"))

/-- platform bucket condition (`lowerHref.includes('pcl.gg')`). -/
def platformCond (lowerHref _text : String) : Bool :=
  strContains lowerHref "pcl.gg"

/-- One iteration of the `$('a').each` classification loop: skip missing
hrefs and the host's own register/login links, then test every bucket
condition against the lower-cased href and lower-cased visible text,
appending matches to their buckets (with per-bucket dedup via `addLink`). -/
def processAnchor (r : ScrapeResult) (a : Anchor) : ScrapeResult :=
  if a.href == "" then r
  else
    let lowerHref := strLower a.href
    let text := strLower a.text
    if excludedHref lowerHref then r
    else
      let r1 := if pdfCond lowerHref text then { r with pdf := addLink r.pdf a.href } else r
      let r2 := if instructionsCond lowerHref text then
          { r1 with instructions := addLink r1.instructions a.href } else r1
      let r3 := if registrationCond lowerHref text then
          { r2 with registration := addLink r2.registration a.href } else r2
      let r4 := if fairPlayCond lowerHref text then
          { r3 with fairPlay := addLink r3.fairPlay a.href } else r3
      if platformCond lowerHref text then
        { r4 with platform := addLink r4.platform a.href } else r4

/-- Classify all anchors of one fetched page. -/
def scrapePage (url : String) (anchors : List Anchor) : ScrapeResult :=
  anchors.foldl processAnchor (emptyScrapeResult url)

/-- Does an anchor land in the bucket of condition `cond`?  (It must carry an
href, survive the register/login exclusion, and satisfy the condition on the
lower-cased href/text.) -/
def anchorMatches (cond : String → String → Bool) (a : Anchor) : Bool :=
  a.href != "" && !(excludedHref (strLower a.href)) && cond (strLower a.href) (strLower a.text)

/-- The first link a page's anchor list contributes to the bucket of
condition `cond` — the reference value for the first-wins property. -/
def firstBucketLink (cond : String → String → Bool) : List Anchor → Option String
  | [] => none
  | a :: rest =>
    if anchorMatches cond a then some a.href else firstBucketLink cond rest

/-- The citation filter of `run-ccl-search`:
`lowerUrl.includes(year) && lowerUrl.includes(lowerSeason) && !lowerUrl.includes('india')`. -/
def filterSource (season year : String) (url : String) : Bool :=
  let lowerUrl := strLower url
  let lowerSeason := strLower season
  strContains lowerUrl year && strContains lowerUrl lowerSeason &&
    !(strContains lowerUrl "india")

/-- Does a scrape result carry at least one classified link?  (`run-ccl-search`
persists a record only in that case.) -/
def hasAnyLink (r : ScrapeResult) : Bool :=
  !r.pdf.isEmpty || !r.instructions.isEmpty || !r.registration.isEmpty ||
    !r.fairPlay.isEmpty || !r.platform.isEmpty

/-- The `tournamentData` object literal persisted by `run-ccl-search`
(`pdf: result.pdf[0] || ''` etc.; `pdfStorageUrl` starts empty, to be
populated by the second API call). -/
def mkTournamentData (season year : String) (r : ScrapeResult) : TournamentRecord :=
  { season := season, year := year, source := r.url,
    pdf := r.pdf.head?.getD "",
    pdfStorageUrl := "",
    instructions := r.instructions.head?.getD "",
    registration := r.registration.head?.getD "",
    fairPlay := r.fairPlay.head?.getD "",
    platform := r.platform.head?.getD "",
    tournamentInfo := none }


/-! ## The drive viewer-link rewrite of `upload-ccl-pdf`

`const driveIdMatch = pdfLink.match(/\/d\/(.+?)\//);` — scan left to right
for an occurrence of the marker `/d/` followed by a non-empty lazy capture
and a closing `/`; the capture is the shortest run of non-newline characters
(the regex `.` does not match a newline) ending before the next `/`. -/

/-- Scan for the terminating `/` of the lazy capture `(.+?)/`, returning the
characters consumed before it; fails at end of input or at a newline
(which `.` cannot match). -/
def captureScan : List Char → Option (List Char)
  | [] => none
  | c :: rest =>
    if c = '/' then some []
    else if c = '\n' then none
    else (captureScan rest).map (fun l => c :: l)

/-- Match `(.+?)\/` against the input: at least one captured character
(any non-newline character, `/` included), then the scan for the closing `/`. -/
def captureAfter : List Char → Option (List Char)
  | [] => none
  | c :: rest =>
    if c = '\n' then none
    else (captureScan rest).map (fun l => c :: l)

/-- The regex engine's left-to-right scan for `\/d\/(.+?)\//`: at each
position try to read the marker `/d/` and then the capture; on failure
resume one character further. -/
def findCapture : List Char → Option (List Char)
  | [] => none
  | c :: rest =>
    if c == '/' && listStartsWith rest ['d', '/'] then
      match captureAfter (rest.drop 2) with
      | some cap => some cap
      | none => findCapture rest
    else findCapture rest

/-- Source: `pdfLink.match(/\/d\/(.+?)\//)`, returning the first capture group. -/
def driveIdMatch (pdfLink : String) : Option String :=
  match findCapture pdfLink.data with
  | some cap => some ⟨cap⟩
  | none => none

/-- Source: `https://drive.google.com/uc?export=download&id=${fileId}` -/
def driveDownloadUrl (fileId : String) : String :=
  "https://drive.google.com/uc?export=download&id=" ++ fileId

/-- The link resolution of `upload-ccl-pdf` (`if (driveIdMatch && driveIdMatch[1])`):
a direct-download URL when the viewer-link marker is found, nothing otherwise. -/
def resolveDriveLink (pdfLink : String) : Option String :=
  match driveIdMatch pdfLink with
  | some fileId => if fileId != "" then some (driveDownloadUrl fileId) else none
  | none => none

/-! ## The `upload-ccl-pdf` handler (archival stage) -/

/-- External collaborators of archival: binary fetch success, the durable
URL that `getDownloadURL` reports for a storage path, and `Date.now()`. -/
structure ArchiveEnv where
  fetchOk : String → Bool
  storageUrl : String → String
  now : Nat

/-- One element of the handler's `updatedDocs` response array:
`{ pdfStorageUrl }` for a fresh upload, `{ pdfStorageUrl, exists: true }`
for a record that already carried a durable URL. -/
structure UpdatedDoc where
  pdfStorageUrl : String
  existsFlag : Bool

/-- Source: `ccl/${season}/${year}/${Date.now()}_ccl_${season}_${year}.pdf` -/
def storagePath (season year : String) (now : Nat) : String :=
  "ccl/" ++ season ++ "/" ++ year ++ "/" ++ toString now ++ "_ccl_" ++
    season ++ "_" ++ year ++ ".pdf"

/-- Result of processing one queried record inside the archival loop:
the (possibly updated) record, its contribution to `updatedDocs`, and the
outward effects (binary fetches, blob uploads by storage path). -/
structure ArchiveStepOut where
  record : TournamentRecord
  report : Option UpdatedDoc
  fetched : List String
  uploaded : List String

/-- The body of the `for (const document of querySnapshot.docs)` loop of
`upload-ccl-pdf`: records with a document link and no stored URL go through
viewer-link resolution, fetch, upload and write-back (fetch failure and an
unmatched link are silent skips); records that already carry `pdfStorageUrl`
are reported as already existing; records with no link are ignored. -/
def archiveStep (env : ArchiveEnv) (season year : String) (r : TournamentRecord) :
    ArchiveStepOut :=
  if r.pdf != "" && r.pdfStorageUrl == "" then
    match resolveDriveLink r.pdf with
    | some downloadUrl =>
      if env.fetchOk downloadUrl then
        let fileName := storagePath season year env.now
        let pdfStorageUrl := env.storageUrl fileName
        { record := { r with pdfStorageUrl := pdfStorageUrl },
          report := some { pdfStorageUrl := pdfStorageUrl, existsFlag := false },
          fetched := [downloadUrl], uploaded := [fileName] }
      else
        { record := r, report := none, fetched := [downloadUrl], uploaded := [] }
    | none => { record := r, report := none, fetched := [], uploaded := [] }
  else if r.pdfStorageUrl != "" then
    { record := r,
      report := some { pdfStorageUrl := r.pdfStorageUrl, existsFlag := true },
      fetched := [], uploaded := [] }
  else
    { record := r, report := none, fetched := [], uploaded := [] }

/-- Response and effects of one `upload-ccl-pdf` call. -/
structure ArchiveOut where
  status : Nat
  message : String
  updatedDocs : List UpdatedDoc
  db : List TournamentRecord
  fetched : List String
  uploaded : List String

/-- The `upload-ccl-pdf` handler: 400 on missing params, 404 when no record
matches `(season, year)`, otherwise run the archival loop over the queried
records (every other record of the store is untouched). -/
def uploadCclPdf (env : ArchiveEnv) (season year : String)
    (db : List TournamentRecord) : ArchiveOut :=
  if season == "" || year == "" then
    { status := 400, message := "Season and year are required",
      updatedDocs := [], db := db, fetched := [], uploaded := [] }
  else
    let matching := db.filter (keyMatch season year)
    if matching.isEmpty then
      { status := 404,
        message := "No tournament info found for " ++ season ++ " " ++ year ++ ".",
        updatedDocs := [], db := db, fetched := [], uploaded := [] }
    else
      { status := 200, message := "PDF processing completed",
        updatedDocs := matching.filterMap (fun r => (archiveStep env season year r).report),
        db := db.map (fun r =>
          if keyMatch season year r then (archiveStep env season year r).record else r),
        fetched := (matching.map (fun r => (archiveStep env season year r).fetched)).flatten,
        uploaded := (matching.map (fun r => (archiveStep env season year r).uploaded)).flatten }

/-! ## The `run-ccl-search` handler (discovery stage) -/

/-- External collaborators of discovery: the search provider's availability,
answer text and citation list, and the page fetch + HTML parse, modelled as
the anchor list of each page (`none` = fetch failed / non-ok status / parse
threw, which the loop logs and skips). -/
structure SearchEnv where
  providerOk : Bool
  answer : String
  citations : List String
  fetchPage : String → Option (List Anchor)

/-- Response and effects of one `run-ccl-search` call. -/
structure SearchOut where
  status : Nat
  message : String
  existsFlag : Bool
  answer : String
  sources : List String
  scrapedData : List ScrapeResult
  savedData : List TournamentRecord
  db : List TournamentRecord
  providerCalled : Bool
  pagesFetched : List String

/-- The `run-ccl-search` handler: 400 on missing params; if any record
already matches `(season, year)` return `exists: true` with the existing
records and change nothing; otherwise call the provider (failure → 500),
filter the citations, scrape and classify each surviving page (per-page
failures skipped), and insert one record per page that yielded at least
one classified link. -/
def runCclSearch (env : SearchEnv) (season year : String)
    (db : List TournamentRecord) : SearchOut :=
  if season == "" || year == "" then
    { status := 400, message := "Season and year are required", existsFlag := false,
      answer := "", sources := [], scrapedData := [], savedData := [], db := db,
      providerCalled := false, pagesFetched := [] }
  else
    let matching := db.filter (keyMatch season year)
    if !matching.isEmpty then
      { status := 200,
        message := "Tournament info for " ++ season ++ " " ++ year ++ " already exists.",
        existsFlag := true, answer := "", sources := [], scrapedData := [],
        savedData := matching, db := db, providerCalled := false, pagesFetched := [] }
    else if !env.providerOk then
      { status := 500, message := "Internal server error", existsFlag := false,
        answer := "", sources := [], scrapedData := [], savedData := [], db := db,
        providerCalled := true, pagesFetched := [] }
    else
      let filteredSources := env.citations.filter (filterSource season year)
      let results := filteredSources.filterMap (fun url =>
        match env.fetchPage url with
        | none => none
        | some anchors =>
          let r := scrapePage url anchors
          if hasAnyLink r then some r else none)
      let savedData := results.map (mkTournamentData season year)
      { status := 200, message := "Search and save completed", existsFlag := false,
        answer := env.answer, sources := filteredSources, scrapedData := results,
        savedData := savedData, db := db ++ savedData, providerCalled := true,
        pagesFetched := filteredSources }

/-! ## The `extract-ccl-info` handler (extraction stage) -/

/-- Models `updateDoc` on the document id of the first queried match: replace the
first element satisfying `p` (all other elements are untouched). -/
def updateFirst (p : α → Bool) (f : α → α) : List α → List α
  | [] => []
  | a :: as => if p a then f a :: as else a :: updateFirst p f as

/-- External collaborators of extraction: binary fetch success, `pdf-parse`
text extraction, the language-model completion, and `JSON.parse`. -/
structure ExtractEnv where
  fetchOk : String → Bool
  pdfText : String → String
  llmResponse : String → String
  parseJson : String → Option Json

/-- Response and effects of one `extract-ccl-info` call. -/
structure ExtractOut where
  status : Nat
  message : String
  tournamentInfo : Option Json
  db : List TournamentRecord
  fetched : List String
  llmCalls : List String

/-- The single comprehensive extraction prompt of `extract-ccl-info`
(the fixed template with the extracted full text interpolated at the end). -/
def extractPrompt (fullText : String) : String :=
  "You are a helpful assistant. Based on the following tournament rules document, extract all the required information and return it as a single JSON object.

The JSON object must have the following structure:
\x7b
    \"logistics\": [
        \x7b\"title\": \"Registration Opens\", \"date\": \"YYYY-MM-DD HH:MM AM/PM PT\"\x7d,
        \x7b\"title\": \"Registration Closes\", \"date\": \"YYYY-MM-DD HH:MM AM/PM PT\"\x7d,
        \x7b\"title\": \"Schedule Release\", \"date\": \"YYYY-MM-DD HH:MM AM/PM PT\"\x7d,
        \x7b\"title\": \"Roster Lock\", \"date\": \"YYYY-MM-DD HH:MM AM/PM PT\"\x7d
    ],
    \"regular_season\": [
        \x7b\"title\": \"Regular Season Round 1\", \"date\": \"YYYY-MM-DD HH:MM AM/PM PT\"\x7d,
        // ... more rounds
    ],
    \"divisions\": [
        \x7b
            \"division\": 1,
            \"playoff_rounds\": [
                \x7b\"title\": \"Quarterfinals\", \"date\": \"YYYY-MM-DD HH:MM AM/PM PT\"\x7d,
                // ... more rounds
            ]
        \x7d,
        \x7b
            \"division\": \"2+\",
            \"playoff_rounds\": [
                \x7b\"title\": \"Round 1\", \"date\": \"YYYY-MM-DD HH:MM AM/PM PT\"\x7d,
                // ... more rounds
            ]
        \x7d
    ],
    \"requirements\": \x7b
        \"minimum_account_age\": <numeric_value>,
        \"minimum_games\": <numeric_value>
    \x7d
\x7d
Specific Instructions:
1. Dates should be formatted as \"YYYY-MM-DD HH:MM AM/PM PT\".
2. For \"logistics\", find the dates for registration open, close, schedule release, and roster locking.
3. For \"regular_season\", list all events in the \x27schedule\x27 section. Note the time of day for group A teams (PT).
3. For \"regular_season\", list all events in the \x27schedule\x27 section. Note the time of day for group A teams (PT).
4. For \"divisions\", extract the playoff schedules.
   - Division 1 rounds: Quarterfinals, Semifinals, 3rd Place/Final.
   - Division 2+ rounds: Round 1, Quarterfinal, Semifinal, Final/3rd Place.
5. For \"requirements\":
   - Find \"Minimum account age\" in section 5.4.4 (in days).
   - Find \"Minimum number of rated blitz games\" in section 5.4.3.

Context:
" ++ fullText ++ "\n"

/-- The markdown code-fence cleanup before `JSON.parse`:
`result.content.replace(/```json/g, '').replace(/```/g, '').trim()`. -/
def cleanLlmContent (s : String) : String :=
  ((s.replace "```json" "").replace "```" "").trim

/-- The `extract-ccl-info` handler: 400 on missing params; 404 when no record
matches; operate on the first queried record only; 400 precondition failure
when it has no stored PDF URL; fetch the archived binary (failure → thrown →
500); build the comprehensive prompt from its extracted text, invoke the
model once, strip code fences and parse as JSON (failure → thrown → 500);
on success write `tournamentInfo` onto that record. -/
def extractCclInfo (env : ExtractEnv) (season year : String)
    (db : List TournamentRecord) : ExtractOut :=
  if season == "" || year == "" then
    { status := 400, message := "Season and year are required",
      tournamentInfo := none, db := db, fetched := [], llmCalls := [] }
  else
    match (db.filter (keyMatch season year)).head? with
    | none =>
      { status := 404,
        message := "No tournament info found for " ++ season ++ " " ++ year ++ ".",
        tournamentInfo := none, db := db, fetched := [], llmCalls := [] }
    | some docData =>
      if docData.pdfStorageUrl == "" then
        { status := 400, message := "PDF has not been uploaded yet.",
          tournamentInfo := none, db := db, fetched := [], llmCalls := [] }
      else if !env.fetchOk docData.pdfStorageUrl then
        { status := 500, message := "Internal server error",
          tournamentInfo := none, db := db,
          fetched := [docData.pdfStorageUrl], llmCalls := [] }
      else
        let fullText := env.pdfText docData.pdfStorageUrl
        let prompt := extractPrompt fullText
        let content := cleanLlmContent (env.llmResponse prompt)
        match env.parseJson content with
        | none =>
          { status := 500, message := "Internal server error",
            tournamentInfo := none, db := db,
            fetched := [docData.pdfStorageUrl], llmCalls := [prompt] }
        | some tournamentInfo =>
          { status := 200,
            message := "Tournament info extracted and saved successfully",
            tournamentInfo := some tournamentInfo,
            db := updateFirst (keyMatch season year)
              (fun r => { r with tournamentInfo := some tournamentInfo }) db,
            fetched := [docData.pdfStorageUrl], llmCalls := [prompt] }

/-! ## Concrete fixtures used by witnesses and counterexamples -/

/-- A record for (spring, 2026) that has already been archived. -/
def recArchived : TournamentRecord :=
  { season := "spring", year := "2026",
    source := "https://www.chess.com/article/ccl-spring-2026",
    pdf := "https://drive.google.com/file/d/ABC123/view",
    pdfStorageUrl := "https://firebasestorage.example/ccl-spring-2026.pdf",
    instructions := "", registration := "", fairPlay := "", platform := "",
    tournamentInfo := none }

/-- A second record for the same (spring, 2026) key, not yet archived. -/
def recUnarchived : TournamentRecord :=
  { season := "spring", year := "2026",
    source := "https://www.chess.com/news/ccl-spring-2026-mirror",
    pdf := "https://drive.google.com/file/d/DEF456/view",
    pdfStorageUrl := "",
    instructions := "", registration := "", fairPlay := "", platform := "",
    tournamentInfo := none }

/-- A store holding two records for the same key: the first archived,
the second not. -/
def dbTwoRecords : List TournamentRecord := [recArchived, recUnarchived]

/-- An unarchived record whose document link is a plain PDF URL, not a
drive viewer link. -/
def recPlainPdf : TournamentRecord :=
  { season := "spring", year := "2026",
    source := "https://www.chess.com/article/ccl-spring-2026-rules",
    pdf := "https://example.com/rules.pdf",
    pdfStorageUrl := "",
    instructions := "", registration := "", fairPlay := "", platform := "",
    tournamentInfo := none }

/-- An archival environment in which every fetch succeeds and the blob store
returns a fixed non-empty durable URL. -/
def envAllOkArchive : ArchiveEnv :=
  { fetchOk := fun _ => true,
    storageUrl := fun _ => "https://firebasestorage.example/stored.pdf",
    now := 1700000000000 }

/-- An extraction environment in which every step succeeds and the model
response parses to the JSON value `null`. -/
def envExtractOk : ExtractEnv :=
  { fetchOk := fun _ => true, pdfText := fun _ => "full text",
    llmResponse := fun _ => "null", parseJson := fun _ => some Json.null }

/-- An extraction environment whose model response never parses as JSON. -/
def envExtractParseFail : ExtractEnv :=
  { fetchOk := fun _ => true, pdfText := fun _ => "full text",
    llmResponse := fun _ => "this is not JSON", parseJson := fun _ => none }

/-- A search environment that is never reached past the existence check. -/
def envSearchIdle : SearchEnv :=
  { providerOk := true, answer := "", citations := [], fetchPage := fun _ => none }

/-! ## Theorems -/

/-- C1: for every `(season, year)` with at least one existing record,
`run-ccl-search` performs no insert (the store is returned unchanged), does
not call the search provider, fetches no page, and returns immediately with
`exists = true` together with all existing records for the key. -/
theorem discover_noop_when_exists (env : SearchEnv) (season year : String)
    (db : List TournamentRecord)
    (hs : season ≠ "") (hy : year ≠ "")
    (hex : (db.filter (keyMatch season year)).isEmpty = false) :
    runCclSearch env season year db =
      { status := 200,
        message := "Tournament info for " ++ season ++ " " ++ year ++ " already exists.",
        existsFlag := true, answer := "", sources := [], scrapedData := [],
        savedData := db.filter (keyMatch season year), db := db,
        providerCalled := false, pagesFetched := [] } := by
  have h1 : (season == "" || year == "") = false := by simp [hs, hy]
  simp [runCclSearch, h1, hex]

/-- Witness for C1 at a concrete store already holding a (spring, 2026)
record: the call returns `exists = true` with that record and leaves the
store untouched. -/
theorem discover_noop_when_exists_witness :
    runCclSearch envSearchIdle "spring" "2026" [recArchived] =
      { status := 200,
        message := "Tournament info for spring 2026 already exists.",
        existsFlag := true, answer := "", sources := [], scrapedData := [],
        savedData := [recArchived], db := [recArchived],
        providerCalled := false, pagesFetched := [] } :=
  (discover_noop_when_exists envSearchIdle "spring" "2026" [recArchived]
      (by decide) (by decide) (by rfl)).trans (by rfl)

/-- C3 (counterexample): with two records for (spring, 2026) — the first
archived, the second with an empty `pdfStorageUrl` — `extract-ccl-info`
does not fail with a precondition error: it succeeds (status 200) and the
language model is called, refuting the claim for non-first records. -/
theorem extract_precondition_cex :
    dbTwoRecords[1]?.map TournamentRecord.pdfStorageUrl = some "" ∧
    (extractCclInfo envExtractOk "spring" "2026" dbTwoRecords).status = 200 ∧
    (extractCclInfo envExtractOk "spring" "2026" dbTwoRecords).llmCalls ≠ [] := by
  refine ⟨rfl, rfl, ?_⟩
  rw [show (extractCclInfo envExtractOk "spring" "2026" dbTwoRecords).llmCalls
      = [extractPrompt "full text"] from rfl]
  exact List.cons_ne_nil _ _

/-- C3 (amended): when the *first* record returned by the store query for
`(season, year)` has an empty `pdfStorageUrl`, `extract-ccl-info` fails with
the 400 client error "PDF has not been uploaded yet." before any binary
fetch or language-model call, and the store is left unchanged. -/
theorem extract_precondition_first_record (env : ExtractEnv) (season year : String)
    (db : List TournamentRecord) (r0 : TournamentRecord)
    (hs : season ≠ "") (hy : year ≠ "")
    (h0 : (db.filter (keyMatch season year)).head? = some r0)
    (hurl : r0.pdfStorageUrl = "") :
    extractCclInfo env season year db =
      { status := 400, message := "PDF has not been uploaded yet.",
        tournamentInfo := none, db := db, fetched := [], llmCalls := [] } := by
  have h1 : (season == "" || year == "") = false := by simp [hs, hy]
  simp [extractCclInfo, h1, h0, hurl]

/-- Witness for the amended C3: a store whose only (spring, 2026) record is
unarchived makes `extract-ccl-info` fail with 400 and no effects. -/
theorem extract_precondition_first_record_witness :
    extractCclInfo envExtractOk "spring" "2026" [recUnarchived] =
      { status := 400, message := "PDF has not been uploaded yet.",
        tournamentInfo := none, db := [recUnarchived], fetched := [], llmCalls := [] } :=
  extract_precondition_first_record envExtractOk "spring" "2026" [recUnarchived]
    recUnarchived (by decide) (by decide) (by rfl) (by rfl)

/-- C5 (counterexample): on a parse failure of the language-model response,
`extract-ccl-info` returns HTTP status 500 — not 502 as claimed — while the
store and `tournamentInfo` are left unchanged. -/
theorem extract_parse_failure_cex :
    (extractCclInfo envExtractParseFail "spring" "2026" [recArchived]).status = 500 ∧
    (extractCclInfo envExtractParseFail "spring" "2026" [recArchived]).status ≠ 502 ∧
    (extractCclInfo envExtractParseFail "spring" "2026" [recArchived]).db = [recArchived] ∧
    (extractCclInfo envExtractParseFail "spring" "2026" [recArchived]).tournamentInfo = none := by
  refine ⟨rfl, ?_, rfl, rfl⟩
  rw [show (extractCclInfo envExtractParseFail "spring" "2026" [recArchived]).status
      = 500 from rfl]
  decide

/-- C5 (amended): when the language-model response cannot be parsed as JSON
after stripping markdown code fences, the call fails wholesale with HTTP
status 500 (the thrown parse error reaches the generic catch-all), no part
of the result is accepted, and the store — hence every record's
`tournamentInfo` — is unchanged. -/
theorem extract_parse_failure_500 (env : ExtractEnv) (season year : String)
    (db : List TournamentRecord) (r0 : TournamentRecord)
    (hs : season ≠ "") (hy : year ≠ "")
    (h0 : (db.filter (keyMatch season year)).head? = some r0)
    (hurl : r0.pdfStorageUrl ≠ "")
    (hfetch : env.fetchOk r0.pdfStorageUrl = true)
    (hparse : env.parseJson (cleanLlmContent (env.llmResponse
        (extractPrompt (env.pdfText r0.pdfStorageUrl)))) = none) :
    extractCclInfo env season year db =
      { status := 500, message := "Internal server error",
        tournamentInfo := none, db := db,
        fetched := [r0.pdfStorageUrl],
        llmCalls := [extractPrompt (env.pdfText r0.pdfStorageUrl)] } := by
  have h1 : (season == "" || year == "") = false := by simp [hs, hy]
  have h2 : (r0.pdfStorageUrl == "") = false := by simp [hurl]
  simp [extractCclInfo, h1, h0, h2, hfetch, hparse]

/-- Witness for the amended C5 at a concrete archived record and a
never-parsing model response. -/
theorem extract_parse_failure_500_witness :
    extractCclInfo envExtractParseFail "spring" "2026" [recArchived] =
      { status := 500, message := "Internal server error",
        tournamentInfo := none, db := [recArchived],
        fetched := [recArchived.pdfStorageUrl],
        llmCalls := [extractPrompt (envExtractParseFail.pdfText recArchived.pdfStorageUrl)] } :=
  extract_parse_failure_500 envExtractParseFail "spring" "2026" [recArchived]
    recArchived (by decide) (by decide) (by rfl) (by decide) (by rfl) (by rfl)

/-- Lemma: `updateFirst` leaves every position other than the first match untouched. -/
theorem updateFirst_getElem?_ne (p : α → Bool) (f : α → α) (l : List α) (j : Nat)
    (hj : j ≠ l.findIdx p) : (updateFirst p f l)[j]? = l[j]? := by
  induction l generalizing j with
  | nil => rfl
  | cons a as ih =>
    by_cases hpa : p a
    · rw [List.findIdx_cons, hpa, cond_true] at hj
      cases j with
      | zero => exact absurd rfl hj
      | succ k => simp [updateFirst, hpa]
    · have hpa' : p a = false := by simpa using hpa
      rw [List.findIdx_cons, hpa', cond_false] at hj
      cases j with
      | zero => simp [updateFirst, hpa']
      | succ k =>
        simp only [updateFirst, hpa', if_neg, List.getElem?_cons_succ,
          Bool.false_eq_true, not_false_eq_true]
        exact ih k (fun h => hj (by rw [h]))

/-- Lemma: `updateFirst` applies `f` exactly at the first matching position. -/
theorem updateFirst_getElem?_findIdx (p : α → Bool) (f : α → α) (l : List α) :
    (updateFirst p f l)[l.findIdx p]? = (l[l.findIdx p]?).map f := by
  induction l with
  | nil => rfl
  | cons a as ih =>
    by_cases hpa : p a
    · simp [updateFirst, hpa, List.findIdx_cons]
    · simpa [updateFirst, hpa, List.findIdx_cons] using ih

/-- C10: when several records exist for a `(season, year)` key and
extraction succeeds, `extract-ccl-info` writes only the first record
returned by the store query — and only its `tournamentInfo` field — while
every other record of the store (in particular every other record for the
same key) is returned unchanged. -/
theorem extract_updates_only_first (env : ExtractEnv) (season year : String)
    (db : List TournamentRecord) (r0 : TournamentRecord) (info : Json)
    (hs : season ≠ "") (hy : year ≠ "")
    (h0 : (db.filter (keyMatch season year)).head? = some r0)
    (hurl : r0.pdfStorageUrl ≠ "")
    (hfetch : env.fetchOk r0.pdfStorageUrl = true)
    (hparse : env.parseJson (cleanLlmContent (env.llmResponse
        (extractPrompt (env.pdfText r0.pdfStorageUrl)))) = some info) :
    (∀ j, j ≠ db.findIdx (keyMatch season year) →
        (extractCclInfo env season year db).db[j]? = db[j]?) ∧
    (extractCclInfo env season year db).db[db.findIdx (keyMatch season year)]? =
      (db[db.findIdx (keyMatch season year)]?).map
        (fun r => { r with tournamentInfo := some info }) := by
  have h1 : (season == "" || year == "") = false := by simp [hs, hy]
  have h2 : (r0.pdfStorageUrl == "") = false := by simp [hurl]
  have hdb : (extractCclInfo env season year db).db =
      updateFirst (keyMatch season year)
        (fun r => { r with tournamentInfo := some info }) db := by
    simp [extractCclInfo, h1, h0, h2, hfetch, hparse]
  rw [hdb]
  exact ⟨fun j hj => updateFirst_getElem?_ne _ _ _ j hj,
    updateFirst_getElem?_findIdx _ _ _⟩

/-- Witness for C10: in the two-record (spring, 2026) store, a successful
extraction leaves the second record (index 1) untouched. -/
theorem extract_updates_only_first_witness :
    (extractCclInfo envExtractOk "spring" "2026" dbTwoRecords).db[1]? =
      dbTwoRecords[1]? :=
  (extract_updates_only_first envExtractOk "spring" "2026" dbTwoRecords
      recArchived Json.null (by decide) (by decide) (by rfl) (by decide)
      (by rfl) (by rfl)).1 1 (by decide)

/-- A record that already carries a durable URL is reported as already
existing and goes through no fetch, no upload and no update. -/
theorem archiveStep_already (env : ArchiveEnv) (season year : String)
    (r : TournamentRecord) (h : r.pdfStorageUrl ≠ "") :
    archiveStep env season year r =
      { record := r,
        report := some { pdfStorageUrl := r.pdfStorageUrl, existsFlag := true },
        fetched := [], uploaded := [] } := by
  have h1 : (r.pdfStorageUrl == "") = false := by simp [h]
  have h2 : (r.pdfStorageUrl != "") = true := by simp [h]
  simp [archiveStep, h1, h2]

/-- One archival step either uploads nothing, or uploads exactly once and
leaves the record holding the blob store's durable URL. -/
theorem archiveStep_upload_inv (env : ArchiveEnv) (season year : String)
    (r : TournamentRecord) :
    (archiveStep env season year r).uploaded = [] ∨
    ((archiveStep env season year r).uploaded.length = 1 ∧
      (archiveStep env season year r).record.pdfStorageUrl =
        env.storageUrl (storagePath season year env.now)) := by
  unfold archiveStep
  split
  · split
    · split
      · right; exact ⟨rfl, rfl⟩
      · left; rfl
    · left; rfl
  · split
    · left; rfl
    · left; rfl

/-- C2: archival is idempotent per record.  (1) A record with a non-empty
`pdfStorageUrl` is processed as a pure already-archived report: no fetch, no
upload, record unchanged.  (2) At the call level, the store entry of any
already-archived record is returned unchanged.  (3) Such a record is
reported in `updatedDocs` with `exists = true`.  (4) Across two successive
archival calls, at most one blob upload happens for any given record,
provided the blob store returns non-empty durable URLs. -/
theorem archive_idempotent_per_record :
    (∀ (env : ArchiveEnv) (season year : String) (r : TournamentRecord),
      r.pdfStorageUrl ≠ "" →
      archiveStep env season year r =
        { record := r,
          report := some { pdfStorageUrl := r.pdfStorageUrl, existsFlag := true },
          fetched := [], uploaded := [] }) ∧
    (∀ (env : ArchiveEnv) (season year : String) (db : List TournamentRecord)
      (i : Nat) (r : TournamentRecord), db[i]? = some r → r.pdfStorageUrl ≠ "" →
      (uploadCclPdf env season year db).db[i]? = some r) ∧
    (∀ (env : ArchiveEnv) (season year : String) (db : List TournamentRecord)
      (r : TournamentRecord), season ≠ "" → year ≠ "" →
      r ∈ db.filter (keyMatch season year) → r.pdfStorageUrl ≠ "" →
      ({ pdfStorageUrl := r.pdfStorageUrl, existsFlag := true } : UpdatedDoc) ∈
        (uploadCclPdf env season year db).updatedDocs) ∧
    (∀ (env1 env2 : ArchiveEnv) (season year : String) (r : TournamentRecord),
      (∀ p, env1.storageUrl p ≠ "") →
      ((archiveStep env1 season year r).uploaded ++
        (archiveStep env2 season year
          (archiveStep env1 season year r).record).uploaded).length ≤ 1) := by
  refine ⟨archiveStep_already, ?_, ?_, ?_⟩
  · intro env season year db i r hget h
    simp only [uploadCclPdf]
    split
    · simpa using hget
    · split
      · simpa using hget
      · rw [List.getElem?_map, hget, Option.map_some']
        split
        · rw [archiveStep_already env season year r h]
        · rfl
  · intro env season year db r hs hy hr h
    have h1 : (season == "" || year == "") = false := by simp [hs, hy]
    have hne : (db.filter (keyMatch season year)).isEmpty = false := by
      cases hl : db.filter (keyMatch season year) with
      | nil => rw [hl] at hr; cases hr
      | cons x xs => rfl
    simp only [uploadCclPdf, h1, Bool.false_eq_true, if_false, hne, if_neg]
    exact List.mem_filterMap.mpr ⟨r, hr, by
      rw [archiveStep_already env season year r h]⟩
  · intro env1 env2 season year r hurl
    rcases archiveStep_upload_inv env1 season year r with h1 | ⟨h1, h2⟩
    · rw [h1, List.nil_append]
      rcases archiveStep_upload_inv env2 season year
          (archiveStep env1 season year r).record with h3 | ⟨h3, _⟩
      · rw [h3]; exact Nat.zero_le 1
      · rw [h3]
    · rw [archiveStep_already env2 season year _ (by rw [h2]; exact hurl _)]
      simpa using Nat.le_of_eq h1

/-- Witness for C2 at a concrete already-archived record: the step is the
pure already-exists report. -/
theorem archive_idempotent_per_record_witness :
    archiveStep envAllOkArchive "spring" "2026" recArchived =
      { record := recArchived,
        report := some { pdfStorageUrl := recArchived.pdfStorageUrl, existsFlag := true },
        fetched := [], uploaded := [] } :=
  archive_idempotent_per_record.1 envAllOkArchive "spring" "2026" recArchived
    (by decide)

/-- C4 (counterexample): a record whose document link is a plain PDF URL
(no `/d/…/` viewer marker) and which has no archived copy is *not* fetched
with the unmodified link: even in an environment where every fetch would
succeed, the archival step performs no fetch, no upload, and leaves the
record unarchived. -/
theorem archive_nonviewer_link_cex :
    recPlainPdf.pdf = "https://example.com/rules.pdf" ∧
    recPlainPdf.pdfStorageUrl = "" ∧
    driveIdMatch recPlainPdf.pdf = none ∧
    archiveStep envAllOkArchive "spring" "2026" recPlainPdf =
      { record := recPlainPdf, report := none, fetched := [], uploaded := [] } :=
  ⟨rfl, rfl, rfl, rfl⟩

/-- C4 (amended): during archival, for every record with a document link and
no archived copy, if the link matches the viewer-link shape the direct
download form is the (only) URL fetched; otherwise — the marker is absent —
the record is skipped entirely: no fetch is attempted, nothing is uploaded,
and the record is left unarchived for a future retry. -/
theorem archive_link_resolution (env : ArchiveEnv) (season year : String)
    (r : TournamentRecord) (hpdf : r.pdf ≠ "") (hurl : r.pdfStorageUrl = "") :
    (∀ fid, driveIdMatch r.pdf = some fid → fid ≠ "" →
      (archiveStep env season year r).fetched = [driveDownloadUrl fid]) ∧
    (driveIdMatch r.pdf = none →
      archiveStep env season year r =
        { record := r, report := none, fetched := [], uploaded := [] }) := by
  have hc : (r.pdf != "" && r.pdfStorageUrl == "") = true := by simp [hpdf, hurl]
  constructor
  · intro fid hm hfid
    have hres : resolveDriveLink r.pdf = some (driveDownloadUrl fid) := by
      simp [resolveDriveLink, hm, hfid]
    simp only [archiveStep, hc, if_true, hres]
    split <;> rfl
  · intro hm
    have hres : resolveDriveLink r.pdf = none := by simp [resolveDriveLink, hm]
    simp [archiveStep, hc, hres]

/-- Witness for the amended C4: the plain-PDF record is skipped with no
fetch, and a drive viewer link is fetched at its rewritten download URL. -/
theorem archive_link_resolution_witness :
    archiveStep envAllOkArchive "spring" "2026" recPlainPdf =
      { record := recPlainPdf, report := none, fetched := [], uploaded := [] } :=
  (archive_link_resolution envAllOkArchive "spring" "2026" recPlainPdf
    (by decide) (by rfl)).2 (by rfl)

/-- C6: a citation URL survives the filter iff it case-insensitively
contains the year and the season name and does not contain the geographic
false-positive token "india" (the year parameter of the handler carries no
upper-case letters, being a decimal string); in particular the three
example URLs of the spec behave as stated. -/
theorem citation_filter_spec :
    (∀ (url season year : String), strLower year = year →
      filterSource season year url =
        (containsCI url year && containsCI url season && !(containsCI url "india"))) ∧
    filterSource "spring" "2026" "https://example.com/2026-spring-rules" = true ∧
    filterSource "spring" "2026" "https://example.com/india-2026-spring" = false ∧
    filterSource "spring" "2026" "https://example.com/2025-spring" = false := by
  refine ⟨?_, by decide, by decide, by decide⟩
  intro url season year hy
  unfold filterSource containsCI
  rw [hy, show strLower "india" = "india" by decide]

/-- Witness for C6: the iff instantiated at the passing example URL. -/
theorem citation_filter_spec_witness :
    filterSource "spring" "2026" "https://example.com/2026-spring-rules" =
      (containsCI "https://example.com/2026-spring-rules" "2026" &&
        containsCI "https://example.com/2026-spring-rules" "spring" &&
        !(containsCI "https://example.com/2026-spring-rules" "india")) :=
  citation_filter_spec.1 "https://example.com/2026-spring-rules" "spring" "2026"
    (by decide)

/-- C7: the drive viewer anchor with visible text "Download PDF" lands in
the document (pdf) bucket, and any anchor whose lower-cased href contains
the host's own register or login path is skipped before bucket evaluation:
the classification state is returned unchanged, so the anchor lands in no
bucket. -/
theorem link_classification_example_and_exclusion :
    (∀ url0 : String,
      (processAnchor (emptyScrapeResult url0)
        { href := "https://drive.google.com/file/d/ABC123/view",
          text := "Download PDF" }).pdf =
        ["https://drive.google.com/file/d/ABC123/view"]) ∧
    (∀ (r : ScrapeResult) (a : Anchor),
      excludedHref (strLower a.href) = true → processAnchor r a = r) := by
  constructor
  · intro url0; rfl
  · intro r a h
    unfold processAnchor
    split
    · rfl
    · simp [h]

/-- Witness for C7: `https://chess.com/register` is excluded — processing it
from the empty classification state returns the empty state. -/
theorem link_classification_witness :
    processAnchor (emptyScrapeResult "https://www.chess.com/article/ccl")
      { href := "https://chess.com/register", text := "Register" } =
      emptyScrapeResult "https://www.chess.com/article/ccl" :=
  link_classification_example_and_exclusion.2 _ _ (by decide)


/-- The classification loop never changes the page URL of the result. -/
theorem processAnchor_url (r : ScrapeResult) (a : Anchor) :
    (processAnchor r a).url = r.url := by
  by_cases h0 : a.href = ""
  · simp [processAnchor, h0]
  · by_cases h1 : excludedHref (strLower a.href) = true
    · simp [processAnchor, h0, h1]
    · have h1' : excludedHref (strLower a.href) = false := by simpa using h1
      simp only [processAnchor, h0, h1', beq_iff_eq, Bool.false_eq_true, if_neg,
        if_false, not_false_eq_true]
      split <;> split <;> split <;> split <;> split <;> rfl

/-- The pdf bucket after one anchor: extended by `addLink` exactly when the
anchor matches the document condition. -/
theorem processAnchor_pdf (r : ScrapeResult) (a : Anchor) :
    (processAnchor r a).pdf =
      if anchorMatches pdfCond a then addLink r.pdf a.href else r.pdf := by
  by_cases h0 : a.href = ""
  · have hm : anchorMatches pdfCond a = false := by simp [anchorMatches, h0]
    simp [processAnchor, h0, hm]
  · by_cases h1 : excludedHref (strLower a.href) = true
    · have hm : anchorMatches pdfCond a = false := by simp [anchorMatches, h1]
      simp [processAnchor, h0, h1, hm]
    · have h1' : excludedHref (strLower a.href) = false := by simpa using h1
      by_cases h2 : pdfCond (strLower a.href) (strLower a.text) = true
      · have hm : anchorMatches pdfCond a = true := by
          simp [anchorMatches, h0, h1', h2]
        simp [processAnchor, h0, h1', h2, hm, apply_ite ScrapeResult.pdf]
      · have h2' : pdfCond (strLower a.href) (strLower a.text) = false := by
          simpa using h2
        have hm : anchorMatches pdfCond a = false := by simp [anchorMatches, h2']
        simp [processAnchor, h0, h1', h2', hm, apply_ite ScrapeResult.pdf]

/-- The instructions bucket after one anchor. -/
theorem processAnchor_instructions (r : ScrapeResult) (a : Anchor) :
    (processAnchor r a).instructions =
      if anchorMatches instructionsCond a then addLink r.instructions a.href
      else r.instructions := by
  by_cases h0 : a.href = ""
  · have hm : anchorMatches instructionsCond a = false := by simp [anchorMatches, h0]
    simp [processAnchor, h0, hm]
  · by_cases h1 : excludedHref (strLower a.href) = true
    · have hm : anchorMatches instructionsCond a = false := by simp [anchorMatches, h1]
      simp [processAnchor, h0, h1, hm]
    · have h1' : excludedHref (strLower a.href) = false := by simpa using h1
      by_cases h2 : instructionsCond (strLower a.href) (strLower a.text) = true
      · have hm : anchorMatches instructionsCond a = true := by
          simp [anchorMatches, h0, h1', h2]
        simp [processAnchor, h0, h1', h2, hm, apply_ite ScrapeResult.instructions]
      · have h2' : instructionsCond (strLower a.href) (strLower a.text) = false := by
          simpa using h2
        have hm : anchorMatches instructionsCond a = false := by
          simp [anchorMatches, h2']
        simp [processAnchor, h0, h1', h2', hm, apply_ite ScrapeResult.instructions]

/-- The registration bucket after one anchor. -/
theorem processAnchor_registration (r : ScrapeResult) (a : Anchor) :
    (processAnchor r a).registration =
      if anchorMatches registrationCond a then addLink r.registration a.href
      else r.registration := by
  by_cases h0 : a.href = ""
  · have hm : anchorMatches registrationCond a = false := by simp [anchorMatches, h0]
    simp [processAnchor, h0, hm]
  · by_cases h1 : excludedHref (strLower a.href) = true
    · have hm : anchorMatches registrationCond a = false := by simp [anchorMatches, h1]
      simp [processAnchor, h0, h1, hm]
    · have h1' : excludedHref (strLower a.href) = false := by simpa using h1
      by_cases h2 : registrationCond (strLower a.href) (strLower a.text) = true
      · have hm : anchorMatches registrationCond a = true := by
          simp [anchorMatches, h0, h1', h2]
        simp [processAnchor, h0, h1', h2, hm, apply_ite ScrapeResult.registration]
      · have h2' : registrationCond (strLower a.href) (strLower a.text) = false := by
          simpa using h2
        have hm : anchorMatches registrationCond a = false := by
          simp [anchorMatches, h2']
        simp [processAnchor, h0, h1', h2', hm, apply_ite ScrapeResult.registration]

/-- The fairPlay bucket after one anchor. -/
theorem processAnchor_fairPlay (r : ScrapeResult) (a : Anchor) :
    (processAnchor r a).fairPlay =
      if anchorMatches fairPlayCond a then addLink r.fairPlay a.href
      else r.fairPlay := by
  by_cases h0 : a.href = ""
  · have hm : anchorMatches fairPlayCond a = false := by simp [anchorMatches, h0]
    simp [processAnchor, h0, hm]
  · by_cases h1 : excludedHref (strLower a.href) = true
    · have hm : anchorMatches fairPlayCond a = false := by simp [anchorMatches, h1]
      simp [processAnchor, h0, h1, hm]
    · have h1' : excludedHref (strLower a.href) = false := by simpa using h1
      by_cases h2 : fairPlayCond (strLower a.href) (strLower a.text) = true
      · have hm : anchorMatches fairPlayCond a = true := by
          simp [anchorMatches, h0, h1', h2]
        simp [processAnchor, h0, h1', h2, hm, apply_ite ScrapeResult.fairPlay]
      · have h2' : fairPlayCond (strLower a.href) (strLower a.text) = false := by
          simpa using h2
        have hm : anchorMatches fairPlayCond a = false := by
          simp [anchorMatches, h2']
        simp [processAnchor, h0, h1', h2', hm, apply_ite ScrapeResult.fairPlay]

/-- The platform bucket after one anchor. -/
theorem processAnchor_platform (r : ScrapeResult) (a : Anchor) :
    (processAnchor r a).platform =
      if anchorMatches platformCond a then addLink r.platform a.href
      else r.platform := by
  by_cases h0 : a.href = ""
  · have hm : anchorMatches platformCond a = false := by simp [anchorMatches, h0]
    simp [processAnchor, h0, hm]
  · by_cases h1 : excludedHref (strLower a.href) = true
    · have hm : anchorMatches platformCond a = false := by simp [anchorMatches, h1]
      simp [processAnchor, h0, h1, hm]
    · have h1' : excludedHref (strLower a.href) = false := by simpa using h1
      by_cases h2 : platformCond (strLower a.href) (strLower a.text) = true
      · have hm : anchorMatches platformCond a = true := by
          simp [anchorMatches, h0, h1', h2]
        simp [processAnchor, h0, h1', h2, hm, apply_ite ScrapeResult.platform]
      · have h2' : platformCond (strLower a.href) (strLower a.text) = false := by
          simpa using h2
        have hm : anchorMatches platformCond a = false := by
          simp [anchorMatches, h2']
        simp [processAnchor, h0, h1', h2', hm, apply_ite ScrapeResult.platform]

/-- Lemma: `addLink` never displaces an existing head: the head of the bucket after
an append is the old head, or the new link when the bucket was empty. -/
theorem addLink_head? (l : List String) (x : String) :
    (addLink l x).head? = l.head?.or (some x) := by
  unfold addLink
  split
  · next h =>
    cases l with
    | nil => simp at h
    | cons a as => rfl
  · cases l with
    | nil => rfl
    | cons a as => rfl

/-- Folding the classification loop over a page's anchors: the head of any
bucket is the starting head or, failing that, the first anchor matched into
that bucket (first-wins). -/
theorem foldl_bucket_head? (get : ScrapeResult → List String)
    (cond : String → String → Bool)
    (hget : ∀ r a, get (processAnchor r a) =
      if anchorMatches cond a then addLink (get r) a.href else get r) :
    ∀ (anchors : List Anchor) (r : ScrapeResult),
      (get (anchors.foldl processAnchor r)).head? =
        (get r).head?.or (firstBucketLink cond anchors) := by
  intro anchors
  induction anchors with
  | nil => intro r; simp [firstBucketLink, Option.or_none]
  | cons a rest ih =>
    intro r
    rw [List.foldl_cons, ih, hget]
    by_cases h : anchorMatches cond a = true
    · rw [if_pos h, addLink_head?, firstBucketLink, if_pos h, Option.or_assoc,
        Option.or_some]
    · rw [if_neg h, firstBucketLink, if_neg h]

/-- The page URL survives the whole classification fold. -/
theorem foldl_url (anchors : List Anchor) (r : ScrapeResult) :
    (anchors.foldl processAnchor r).url = r.url := by
  induction anchors generalizing r with
  | nil => rfl
  | cons a rest ih => rw [List.foldl_cons, ih, processAnchor_url]

/-- C9: for every classified source page, the persisted record's link
fields are exactly the first link matched into the corresponding bucket on
that page (first-wins — later matches for an already-populated category
never replace the head), and a field whose bucket stayed empty is persisted
as the empty string. -/
theorem record_fields_first_wins (season year url : String)
    (anchors : List Anchor) :
    mkTournamentData season year (scrapePage url anchors) =
      { season := season, year := year, source := url,
        pdf := (firstBucketLink pdfCond anchors).getD "",
        pdfStorageUrl := "",
        instructions := (firstBucketLink instructionsCond anchors).getD "",
        registration := (firstBucketLink registrationCond anchors).getD "",
        fairPlay := (firstBucketLink fairPlayCond anchors).getD "",
        platform := (firstBucketLink platformCond anchors).getD "",
        tournamentInfo := none } := by
  have hpdf := foldl_bucket_head? ScrapeResult.pdf pdfCond processAnchor_pdf
    anchors (emptyScrapeResult url)
  have hins := foldl_bucket_head? ScrapeResult.instructions instructionsCond
    processAnchor_instructions anchors (emptyScrapeResult url)
  have hreg := foldl_bucket_head? ScrapeResult.registration registrationCond
    processAnchor_registration anchors (emptyScrapeResult url)
  have hfp := foldl_bucket_head? ScrapeResult.fairPlay fairPlayCond
    processAnchor_fairPlay anchors (emptyScrapeResult url)
  have hpl := foldl_bucket_head? ScrapeResult.platform platformCond
    processAnchor_platform anchors (emptyScrapeResult url)
  simp only [emptyScrapeResult, List.head?_nil, Option.none_or] at hpdf hins hreg hfp hpl
  unfold mkTournamentData scrapePage
  simp only [emptyScrapeResult]
  rw [foldl_url, hpdf, hins, hreg, hfp, hpl]

/-- The lazy scan stops exactly at the delimiting `/` when the consumed
characters contain neither `/` nor a newline. -/
theorem captureScan_exact (I B : List Char)
    (h : ∀ c ∈ I, c ≠ '/' ∧ c ≠ '\n') :
    captureScan (I ++ '/' :: B) = some I := by
  induction I with
  | nil => simp [captureScan]
  | cons c cs ih =>
    have hc := h c (List.mem_cons_self c cs)
    simp only [List.cons_append, captureScan, if_neg hc.1, if_neg hc.2,
      List.append_eq]
    rw [ih (fun x hx => (h x (List.mem_cons_of_mem c hx)))]
    rfl

/-- The lazy capture `(.+?)/` consumes exactly a non-empty slash-free,
newline-free identifier followed by `/`. -/
theorem captureAfter_exact (I B : List Char) (hne : I ≠ [])
    (h : ∀ c ∈ I, c ≠ '/' ∧ c ≠ '\n') :
    captureAfter (I ++ '/' :: B) = some I := by
  cases I with
  | nil => exact absurd rfl hne
  | cons c cs =>
    have hc := h c (List.mem_cons_self c cs)
    simp only [List.cons_append, captureAfter, if_neg hc.2, List.append_eq]
    rw [captureScan_exact cs B (fun x hx => (h x (List.mem_cons_of_mem c hx)))]
    rfl

/-- A two-character prefix test only inspects the first two characters, so
it cannot see past `c1 :: c2 ::` into the tail. -/
theorem listStartsWith_pair (A : List Char) (u v c1 c2 : Char)
    (K K' : List Char) :
    listStartsWith (A ++ c1 :: c2 :: K) [u, v] =
      listStartsWith (A ++ c1 :: c2 :: K') [u, v] := by
  cases A with
  | nil => simp [listStartsWith]
  | cons x A1 =>
    cases A1 with
    | nil => simp [listStartsWith]
    | cons y A' => simp [listStartsWith]

/-- When the marker `/d/` does not occur before position `|A|`, the regex
scan skips the whole prefix `A`. -/
theorem findCapture_append (A K : List Char)
    (h : containsSeq (A ++ ['/', 'd']) ['/', 'd', '/'] = false) :
    findCapture (A ++ '/' :: 'd' :: '/' :: K) =
      findCapture ('/' :: 'd' :: '/' :: K) := by
  induction A with
  | nil => rfl
  | cons c A' ih =>
    rw [List.cons_append] at h
    have hsplit := Bool.or_eq_false_iff.mp (by
      have h2 : (listStartsWith (c :: (A' ++ ['/', 'd'])) ['/', 'd', '/'] ||
          containsSeq (A' ++ ['/', 'd']) ['/', 'd', '/']) = false := by
        rw [← h]; rfl
      exact h2)
    have hcond : (c == '/' &&
        listStartsWith (A' ++ '/' :: 'd' :: '/' :: K) ['d', '/']) = false := by
      cases hcc : (c == '/') with
      | false => simp [hcc]
      | true =>
        cases hsw : listStartsWith (A' ++ '/' :: 'd' :: '/' :: K) ['d', '/'] with
        | false => simp [hsw]
        | true =>
          exfalso
          have hsw2 : listStartsWith (A' ++ '/' :: 'd' :: ([] : List Char))
              ['d', '/'] = true := by
            rw [listStartsWith_pair A' 'd' '/' '/' 'd' ([] : List Char)
              ('/' :: K)]
            exact hsw
          have hfront : listStartsWith (c :: (A' ++ ['/', 'd']))
              ['/', 'd', '/'] = true := by
            show (c == '/' && listStartsWith (A' ++ ['/', 'd']) ['d', '/']) = true
            rw [hcc, hsw2]
            rfl
          rw [hfront] at hsplit
          exact Bool.true_eq_false.mp hsplit.1
    rw [List.cons_append]
    show (if (c == '/' && listStartsWith (A' ++ '/' :: 'd' :: '/' :: K) ['d', '/']) = true
      then match captureAfter ((A' ++ '/' :: 'd' :: '/' :: K).drop 2) with
        | some cap => some cap
        | none => findCapture (A' ++ '/' :: 'd' :: '/' :: K)
      else findCapture (A' ++ '/' :: 'd' :: '/' :: K)) =
      findCapture ('/' :: 'd' :: '/' :: K)
    rw [if_neg (by rw [hcond]; exact Bool.false_ne_true)]
    exact ih hsplit.2

/-- C8: for every drive viewer link whose file identifier sits between the
first `/d/` marker and the next `/` (a non-empty identifier free of `/` and
newlines, with no earlier `/d/` occurrence), the archival link resolution
produces exactly the direct-download URL
`https://drive.google.com/uc?export=download&id=` followed by that
identifier. -/
theorem drive_viewer_roundtrip (a ident b : String)
    (hne : ident ≠ "")
    (hchars : ∀ c ∈ ident.data, c ≠ '/' ∧ c ≠ '\n')
    (hfirst : strContains (a ++ "/d") "/d/" = false) :
    resolveDriveLink (a ++ "/d/" ++ ident ++ "/" ++ b) =
      some (driveDownloadUrl ident) := by
  have hne' : ident.data ≠ [] := by
    intro hnil
    apply hne
    cases ident with
    | mk l =>
      have hl : l = [] := hnil
      rw [hl]
  have hdata : (a ++ "/d/" ++ ident ++ "/" ++ b).data =
      a.data ++ '/' :: 'd' :: '/' :: (ident.data ++ '/' :: b.data) := by
    simp [List.append_assoc]
  have hfirst' : containsSeq (a.data ++ ['/', 'd']) ['/', 'd', '/'] = false := by
    simpa [strContains] using hfirst
  have hfc : findCapture ('/' :: 'd' :: '/' :: (ident.data ++ '/' :: b.data)) =
      some ident.data := by
    simp only [findCapture, listStartsWith, beq_self_eq_true, Bool.and_true,
      Bool.true_and, if_true, List.drop_succ_cons, List.drop_zero]
    rw [captureAfter_exact ident.data b.data hne' hchars]
  unfold resolveDriveLink driveIdMatch
  rw [hdata, findCapture_append a.data _ hfirst', hfc]
  dsimp only
  have heta : (⟨ident.data⟩ : String) = ident := rfl
  rw [heta, if_pos (by simpa using hne)]

/-- Witness for C8: the spec's example viewer link
`…/d/XYZ789/view?usp=sharing` resolves to the download URL carrying
`id=XYZ789`. -/
theorem drive_viewer_roundtrip_witness :
    resolveDriveLink "https://drive.google.com/file/d/XYZ789/view?usp=sharing" =
      some (driveDownloadUrl "XYZ789") :=
  drive_viewer_roundtrip "https://drive.google.com/file" "XYZ789"
    "view?usp=sharing" (by decide) (by decide) (by decide)
